import Mathlib

/-!
Verification of the ambient-analytics request-chain spec against the
repository's route handlers and orchestration page.

The handlers are thin request/response functions around an external LLM and
a Postgres driver.  We embed each handler's post-call logic as a pure
function: the LLM's reply (or its JSON-parse outcome) and the database
driver's outcome are inputs, and the HTTP response body (plus, where a
claim needs it, the trace of connection open/close events) is the output.
Strings are modelled as `List Char`; JSON values as the `Json` inductive
below; JS truthiness, `||` defaulting, `String.prototype.trim`, and the
regex replaces used for Markdown-fence stripping are modelled explicitly.
-/

/-- JSON values as produced by `JSON.parse`: null, booleans, numbers
(modelled as rationals), strings, arrays and objects (field lists; objects
coming out of `JSON.parse` have distinct keys). -/
inductive Json where
  | null
  | bool (b : Bool)
  | num (q : ℚ)
  | str (s : String)
  | arr (elems : List Json)
  | obj (fields : List (String × Json))

/-- JS truthiness of a JSON value: `null`, `false`, `0`, and the empty
string are falsy; arrays and objects are always truthy. -/
def jsTruthy : Json → Bool
  | Json.null => false
  | Json.bool b => b
  | Json.num q => decide (q ≠ 0)
  | Json.str s => decide (s ≠ "")
  | Json.arr _ => true
  | Json.obj _ => true

/-- First binding of a key in an object's field list. -/
def lookupField : List (String × Json) → String → Option Json
  | [], _ => none
  | (k', v) :: rest, k => if k' = k then some v else lookupField rest k

/-- JS property access `j.k` for values on which access does not throw:
yields the field of an object, `undefined` (here `none`) otherwise. -/
def getProp (j : Json) (k : String) : Option Json :=
  match j with
  | Json.obj fs => lookupField fs k
  | _ => none

/-- JS `v || d` applied to a possibly-undefined value: the value when it is
present and truthy, the default otherwise. -/
def jsOr (o : Option Json) (d : Json) : Json :=
  match o with
  | some v => if jsTruthy v then v else d
  | none => d

/-- JS truthiness of a possibly-undefined value. -/
def truthyOpt (o : Option Json) : Bool :=
  match o with
  | some v => jsTruthy v
  | none => false

/-! ## Strings: whitespace, trim, Markdown-fence stripping -/

/-- The backtick character (written by code point to keep source plain). -/
def bt : Char := '\x60'

/-- Whitespace as recognised by `String.prototype.trim` (the code points
that occur in this codebase's data; the proofs only use that `;`, letters
and the backtick are not whitespace). -/
def wsChar (c : Char) : Bool :=
  c = ' ' || c = '\t' || c = '\n' || c = '\r' || c = '\x0b' || c = '\x0c' || c = '\xa0'

/-- `String.prototype.trim`: drop whitespace from both ends. -/
def trimChars (l : List Char) : List Char :=
  List.rdropWhile wsChar (List.dropWhile wsChar l)

/-- The fence opener "```sql" as a character list. -/
def fenceSql : List Char := [bt, bt, bt, 's', 'q', 'l']

/-- A bare fence "```". -/
def fence : List Char := [bt, bt, bt]

/-- Consume the optional `\n?` at the end of a fence match: drop one
leading newline when present. -/
def dropNl : List Char → List Char
  | '\n' :: r => r
  | r => r

/-- The global regex replace `.replace(/```sql\n?/g, '')` from the
generate-sql routes: every occurrence of "```sql", together with one
following newline when present, is removed, scanning left to right. -/
def stripTicksSql : List Char → List Char
  | [] => []
  | [a] => [a]
  | [a, b] => [a, b]
  | [a, b, c] => [a, b, c]
  | [a, b, c, d] => [a, b, c, d]
  | [a, b, c, d, e] => [a, b, c, d, e]
  | a :: b :: c :: d :: e :: f :: rest =>
    if [a, b, c, d, e, f] = fenceSql then stripTicksSql (dropNl rest)
    else a :: stripTicksSql (b :: c :: d :: e :: f :: rest)
termination_by l => l.length
decreasing_by
  · have hdl : (dropNl rest).length ≤ rest.length := by
      unfold dropNl
      split
      · simp
      · exact Nat.le_refl _
    simp only [List.length_cons]
    omega
  · simp only [List.length_cons]
    omega

/-- The global regex replace `.replace(/```\n?/g, '')`: every occurrence of
"```", together with one following newline when present, is removed,
scanning left to right. -/
def stripTicks : List Char → List Char
  | [] => []
  | [a] => [a]
  | [a, b] => [a, b]
  | a :: b :: c :: rest =>
    if [a, b, c] = fence then stripTicks (dropNl rest)
    else a :: stripTicks (b :: c :: rest)
termination_by l => l.length
decreasing_by
  · have hdl : (dropNl rest).length ≤ rest.length := by
      unfold dropNl
      split
      · simp
      · exact Nat.le_refl _
    simp only [List.length_cons]
    omega
  · simp only [List.length_cons]
    omega

/-- The SQL cleanup applied to LLM output in `generate-sql/route.ts` and
`generateSQLLogic`: strip "```sql" fences, then bare "```" fences, then
trim. -/
def cleanSQL (s : List Char) : List Char :=
  trimChars (stripTicks (stripTicksSql s))

/-- `String.prototype.trim` on Lean strings (used for question filtering). -/
def trimStr (s : String) : String := String.mk (trimChars s.data)

/-! ## Data model of the orchestration page (`JoinTables` in the
natural-language-to-SQL page) -/

/-- `Column` record returned by the columns introspection route. -/
structure Column where
  name : String
  type : String
  nullable : Bool
  default : Option String
  maxLength : Option Int

/-- A table together with its columns, as stored on a message. -/
structure TableWithColumns where
  table : String
  columns : List Column

/-- `QueryResult` as returned by the execute-sql route: column names, row
objects, row count. -/
structure QueryResult where
  columns : List String
  rows : List Json
  rowCount : Int

/-- `SQLEvaluation` attached to an assistant message. -/
structure SQLEvaluation where
  score : ℚ
  summary : String
  strengths : List String
  issues : List String
  suggestions : String

/-- Message role. -/
inductive Role where
  | user
  | assistant
deriving DecidableEq

/-- A conversational `Message` of the orchestration page. -/
structure Message where
  id : String
  role : Role
  content : String
  relevantTables : Option (List String)
  sql : Option String
  refinedSQL : Option String
  refinedEvaluation : Option SQLEvaluation
  refinedResult : Option QueryResult
  evaluation : Option SQLEvaluation
  result : Option QueryResult
  interpretation : Option String
  error : Option String
  userQuestion : Option String
  tablesWithColumns : Option (List TableWithColumns)

/-- JS truthiness of an optional string field (absent and empty are falsy). -/
def optStrTruthy (s : Option String) : Bool :=
  match s with
  | some v => decide (v ≠ "")
  | none => false

/-- The guard of the "Refine SQL" button in the orchestration page:
`message.evaluation.score < 0.9 && message.userQuestion && message.sql &&
!message.refinedSQL`, inside the `message.evaluation &&` block. -/
def refineActionAvailable (m : Message) : Bool :=
  (match m.evaluation with
   | some ev => decide (ev.score < 9/10)
   | none => false)
  && optStrTruthy m.userQuestion && optStrTruthy m.sql && !(optStrTruthy m.refinedSQL)

/-! ## evaluate-sql-query endpoint (single SQL query evaluation) -/

/-- The evaluation object the endpoint returns on success, with the `||`
defaults of the route applied to each field. -/
structure EvalFields where
  score : Json
  summary : Json
  strengths : Json
  issues : Json
  suggestions : Json

/-- Post-LLM logic of the evaluate-sql-query POST handler.  The input is
the outcome of `JSON.parse(content || "\x7b\x7d")`: `none` when the parse
threw (the route's catch then answers HTTP 500), `some j` otherwise.  A
parsed `null` also yields the 500 path, because `evaluation.score` throws
on `null`. -/
def evalEndpoint (po : Option Json) : Option EvalFields :=
  match po with
  | none => none
  | some Json.null => none
  | some j =>
    some { score := jsOr (getProp j "score") (Json.num 0),
           summary := jsOr (getProp j "summary") (Json.str "No summary provided"),
           strengths := jsOr (getProp j "strengths") (Json.arr []),
           issues := jsOr (getProp j "issues") (Json.arr []),
           suggestions := jsOr (getProp j "suggestions") (Json.str "") }

/-- Whether a JSON value is a number lying in the unit interval. -/
def scoreInUnit (j : Json) : Bool :=
  match j with
  | Json.num q => decide (0 ≤ q ∧ q ≤ 1)
  | _ => false

/-! ## generate-chart-config endpoint -/

/-- Post-LLM logic of the generate-chart-config POST handler: input is the
outcome of `JSON.parse` on the fence-stripped response (`none` = parse
threw); a parsed config must have truthy `type` and `data` fields, else the
route answers with an error; a parsed `null` throws on property access and
also lands on the error path. -/
def chartConfigEndpoint (po : Option Json) : Except Unit Json :=
  match po with
  | none => Except.error ()
  | some Json.null => Except.error ()
  | some j =>
    if truthyOpt (getProp j "type") && truthyOpt (getProp j "data") then Except.ok j
    else Except.error ()

/-! ## generate-questions endpoint -/

/-- First array-valued field of an object, mirroring
`Object.values(parsed).find(v => Array.isArray(v))`. -/
def firstArrayValue : List (String × Json) → Option (List Json)
  | [] => none
  | (_, Json.arr xs) :: _ => some xs
  | _ :: rest => firstArrayValue rest

/-- The question-array extraction of the generate-questions route: a parsed
array is used directly; otherwise an object's `questions` field when it is
an array; otherwise the first array-valued field; a parsed `null` throws on
`parsed.questions` (`none` here); non-object scalars leave the list empty. -/
def extractQuestionsArr : Json → Option (List Json)
  | Json.null => none
  | Json.arr xs => some xs
  | Json.obj fs =>
    match lookupField fs "questions" with
    | some (Json.arr qs) => some qs
    | _ => some ((firstArrayValue fs).getD [])
  | _ => some []

/-- The per-question filter `typeof q === 'string' && q.trim().length > 0`,
returning the original (untrimmed) string. -/
def questionKeep (j : Json) : Option String :=
  match j with
  | Json.str s => if (trimStr s).length > 0 then some s else none
  | _ => none

/-- Post-LLM logic of the generate-questions POST handler: `none` input
means `JSON.parse` threw (the route then throws "Failed to parse questions
response"); after extraction the questions are filtered and capped at 10;
an empty final list raises "No valid questions generated". -/
def questionsEndpoint (po : Option Json) : Except Unit (List String) :=
  match po with
  | none => Except.error ()
  | some p =>
    match extractQuestionsArr p with
    | none => Except.error ()
    | some qs =>
      let valid := (qs.filterMap questionKeep).take 10
      if valid.isEmpty then Except.error () else Except.ok valid

/-! ## identify-relevant-tables endpoint -/

/-- The match of the regex `\[[\s\S]*\]` against the response text: the
leftmost match starts at the first open bracket and, being greedy, extends
to the last closing bracket after it; `none` when no such pair exists. -/
def extractJsonArray (s : List Char) : Option (List Char) :=
  let pre := s.dropWhile (fun c => decide (c ≠ '['))
  if pre.isEmpty then none
  else
    let cand := List.rdropWhile (fun c => decide (c ≠ ']')) pre
    if cand.isEmpty then none else some cand

/-- `identifyTablesLogic`: trim the LLM response (empty when absent),
extract a bracketed JSON-array candidate, parse it, and keep only the
elements that are strings occurring in the provided table list.
`parseArr` stands for `JSON.parse` on the candidate text: `none` when the
parse throws; a successful parse of a text that starts with an open
bracket is always an array, hence the list result type. -/
def identifyTablesLogic (tables : List String) (respContent : Option (List Char))
    (parseArr : List Char → Option (List Json)) : List String :=
  let responseText := (respContent.map trimChars).getD []
  match extractJsonArray responseText with
  | none => []
  | some cand =>
    let relevant := (parseArr cand).getD []
    relevant.filterMap (fun j =>
      match j with
      | Json.str s => if s ∈ tables then some s else none
      | _ => none)

/-! ## generate-joined-sql endpoint -/

/-- The suffix `\n` + three backticks removed by `.replace(/\n\x60\x60\x60$/, "")`. -/
def nlFence : List Char := '\n' :: fence

/-- "```sql" followed by a newline, removed by `.replace(/^\x60\x60\x60sql\n/, "")`. -/
def fenceSqlNl : List Char := fenceSql ++ ['\n']

/-- A bare fence followed by a newline. -/
def fenceNl : List Char := fence ++ ['\n']

/-- Anchored replace of a leading pattern by the empty string. -/
def stripLeadIf (p s : List Char) : List Char :=
  if p.isPrefixOf s then s.drop p.length else s

/-- Anchored replace of a trailing pattern by the empty string. -/
def stripTrailIf (p s : List Char) : List Char :=
  if p.isSuffixOf s then s.take (s.length - p.length) else s

/-- The fence cleanup of `generateJoinedSQLLogic`: when the response starts
with "```sql" (resp. "```"), remove that opener with its newline and the
closing newline-fence suffix. -/
def cleanJoinedSql (sql : List Char) : List Char :=
  if fenceSql.isPrefixOf sql then stripTrailIf nlFence (stripLeadIf fenceSqlNl sql)
  else if fence.isPrefixOf sql then stripTrailIf nlFence (stripLeadIf fenceNl sql)
  else sql

/-- Post-LLM logic of `generateJoinedSQLLogic`: trim the response (empty
when absent), strip fences, and append a semicolon when the trimmed
cleaned SQL does not already end with one (note: in that last comparison
the string is trimmed, but the untrimmed `cleanedSql` is what is returned
when the semicolon is already present). -/
def generateJoinedSQLOut (respContent : Option (List Char)) : List Char :=
  let sql := (respContent.map trimChars).getD []
  let cleanedSql := cleanJoinedSql sql
  if (trimChars cleanedSql).getLast? = some ';' then cleanedSql
  else trimChars cleanedSql ++ [';']

/-! ## execute-sql and columns handlers, with connection traces -/

/-- Connection lifecycle events of a `pg` client within one handler call. -/
inductive DbEvent where
  | connOpened
  | connClosed
deriving DecidableEq

/-- The raw result of `client.query` as the `pg` driver delivers it. -/
structure PgResult where
  fields : List String
  rows : List Json
  rowCount : Option Int

/-- Body of the execute-sql response. -/
structure ExecResponse where
  result : Option QueryResult
  error : Option String
  status : Nat

/-- The execute-sql POST handler after a successful `connect`: the query
outcome is either a driver result or the thrown error's message.  The
query runs inside try/catch/finally, so `client.end()` is reached on both
paths and the handler answers HTTP 200 either way, with
`execError.message || "Failed to execute SQL"` as the error string. -/
def executeSqlPOST (outcome : Except String PgResult) : ExecResponse × List DbEvent :=
  match outcome with
  | Except.ok r =>
    ({ result := some { columns := r.fields, rows := r.rows, rowCount := r.rowCount.getD 0 },
       error := none, status := 200 },
     [DbEvent.connOpened, DbEvent.connClosed])
  | Except.error msg =>
    ({ result := none,
       error := some (if msg = "" then "Failed to execute SQL" else msg),
       status := 200 },
     [DbEvent.connOpened, DbEvent.connClosed])

/-- One `information_schema.columns` row. -/
structure InfoSchemaColumn where
  columnName : String
  dataType : String
  isNullable : String
  columnDefault : Option String
  maxLength : Option Int

/-- The columns POST handler (an introspection handler) after a successful
`connect`: `await client.query(...)` is followed by `await client.end()`
with no try/finally, so a throwing query jumps to the outer catch (HTTP
500) without ever closing the connection. -/
def columnsPOST (outcome : Except String (List InfoSchemaColumn)) :
    Except String (List Column) × List DbEvent :=
  match outcome with
  | Except.ok rows =>
    (Except.ok (rows.map fun r =>
       { name := r.columnName, type := r.dataType, nullable := r.isNullable = "YES",
         default := r.columnDefault, maxLength := r.maxLength }),
     [DbEvent.connOpened, DbEvent.connClosed])
  | Except.error _ =>
    (Except.error "Failed to fetch columns", [DbEvent.connOpened])

/-! ## The per-turn pipeline of `sendMessage` -/

/-- The six steps of a turn, in pipeline order. -/
inductive PipelineStep where
  | identifyTables
  | fetchColumns
  | generateSQL
  | executeSQL
  | evaluateSQL
  | interpretResults
deriving DecidableEq

/-- Outcomes of the external calls a turn can make.  `none` models a fetch
that threw or answered non-OK; for the execute step, `some (Except.error e)`
models an OK response whose body carried `error: e`. -/
structure TurnCalls where
  identifyOutcome : Option (List String)
  columnsOutcome : Option (List TableWithColumns)
  generateOutcome : Option String
  executeOutcome : Option (Except String QueryResult)
  evaluateOutcome : Option SQLEvaluation
  interpretOutcome : Option String

/-- The freshly inserted assistant placeholder message. -/
def baseAssistantMessage (q : String) : Message :=
  { id := "", role := Role.assistant, content := "", relevantTables := none,
    sql := none, refinedSQL := none, refinedEvaluation := none, refinedResult := none,
    evaluation := none, result := none, interpretation := none, error := none,
    userQuestion := some q, tablesWithColumns := none }

/-- Step 5 always stores the evaluation when its call succeeded and leaves
the message unchanged when it failed (the catch only logs). -/
def applyEvaluationStep (msg : Message) (ev : Option SQLEvaluation) : Message :=
  match ev with
  | some e => { msg with evaluation := some e }
  | none => msg

/-- The control flow of `sendMessage` for one turn: which steps run (in
order) and the final assistant message.  Failures in steps 1-3 `return`
early; an execution failure records the error and falls through to
evaluation; interpretation runs only when a result was produced. -/
def sendMessagePipeline (q : String) (t : TurnCalls) : List PipelineStep × Message :=
  let msg := baseAssistantMessage q
  match t.identifyOutcome with
  | none =>
    ([PipelineStep.identifyTables],
     { msg with error := some "Failed to identify relevant tables" })
  | some ts =>
    let msg := { msg with relevantTables := some ts }
    if ts.isEmpty then
      ([PipelineStep.identifyTables],
       { msg with error := some "No relevant tables identified for your query" })
    else
      match t.columnsOutcome with
      | none =>
        ([PipelineStep.identifyTables, PipelineStep.fetchColumns],
         { msg with error := some "Failed to fetch columns for relevant tables" })
      | some twc =>
        let msg := { msg with tablesWithColumns := some twc }
        match t.generateOutcome with
        | none =>
          ([PipelineStep.identifyTables, PipelineStep.fetchColumns, PipelineStep.generateSQL],
           { msg with error := some "Failed to generate SQL" })
        | some sql =>
          let msg := { msg with sql := some sql }
          match t.executeOutcome with
          | none =>
            let msg := applyEvaluationStep { msg with error := some "Failed to execute SQL" }
              t.evaluateOutcome
            ([PipelineStep.identifyTables, PipelineStep.fetchColumns, PipelineStep.generateSQL,
              PipelineStep.executeSQL, PipelineStep.evaluateSQL], msg)
          | some (Except.error e) =>
            let msg := applyEvaluationStep { msg with error := some e } t.evaluateOutcome
            ([PipelineStep.identifyTables, PipelineStep.fetchColumns, PipelineStep.generateSQL,
              PipelineStep.executeSQL, PipelineStep.evaluateSQL], msg)
          | some (Except.ok r) =>
            let msg := applyEvaluationStep { msg with result := some r } t.evaluateOutcome
            let msg :=
              match t.interpretOutcome with
              | some i => { msg with interpretation := some i, content := i }
              | none => msg
            ([PipelineStep.identifyTables, PipelineStep.fetchColumns, PipelineStep.generateSQL,
              PipelineStep.executeSQL, PipelineStep.evaluateSQL, PipelineStep.interpretResults],
             msg)

/-! ## Concrete instances used by witnesses and counterexamples -/

/-- An assistant message carrying an evaluation with the given score, a SQL
string, and the stored user question, with no refined SQL yet. -/
def msgWithScore (q : ℚ) : Message :=
  { baseAssistantMessage "How many users signed up last month?" with
      sql := some "SELECT COUNT(*) FROM public.users;",
      evaluation := some { score := q, summary := "ok", strengths := [], issues := [],
                           suggestions := "" } }

/-- A turn whose first three calls succeed and whose execute call answers
with a driver error in its body. -/
def turnWithExecError : TurnCalls :=
  { identifyOutcome := some ["users"],
    columnsOutcome := some [{ table := "users", columns := [] }],
    generateOutcome := some "SELECT 1/0;",
    executeOutcome := some (Except.error "division by zero"),
    evaluateOutcome := some { score := 13/20, summary := "ok", strengths := [], issues := [],
                              suggestions := "" },
    interpretOutcome := none }

/-- A stand-in for `JSON.parse` on the extracted candidate: succeeds with a
fixed array holding two strings and a number. -/
def demoParseArr : List Char → Option (List Json) :=
  fun _ => some [Json.str "users", Json.str "teams", Json.num 3]

/-- An LLM reply for the joined-SQL route: a "```sql" fence around
"SELECT 1; " whose trailing space survives the anchored replaces. -/
def demoFencedResp : List Char :=
  fenceSqlNl ++ ['S', 'E', 'L', 'E', 'C', 'T', ' ', '1', ';', ' '] ++ nlFence

/-- A parsed generate-questions reply: one valid question and one
whitespace-only entry. -/
def demoQuestionsJson : Json :=
  Json.obj [("questions", Json.arr [Json.str "How many users are there?", Json.str "   "])]

/-! ## Fence-freeness of the stripped output (toward idempotence) -/

theorem stripTicks_head_bt (s : List Char) (h : (stripTicks s).head? = some bt) :
    s.head? = some bt := by
  induction s using stripTicks.induct with
  | case1 => simp [stripTicks] at h
  | case2 a =>
    rw [stripTicks] at h
    exact h
  | case3 a b =>
    rw [stripTicks] at h
    simpa using h
  | case4 a b c rest hf ih =>
    have : a = bt := by simpa [fence] using congrArg (List.head? ·) hf
    simp [this]
  | case5 a b c rest hf ih =>
    rw [stripTicks, if_neg hf] at h
    simp only [List.head?_cons, Option.some.injEq] at h
    simp [h]

theorem stripTicks_prefix_btbt (s : List Char) (h : [bt, bt] <+: stripTicks s) :
    [bt, bt] <+: s := by
  induction s using stripTicks.induct with
  | case1 =>
    rw [stripTicks] at h
    have := h.length_le
    simp at this
  | case2 a =>
    rw [stripTicks] at h
    have := h.length_le
    simp at this
  | case3 a b =>
    rw [stripTicks] at h
    exact h
  | case4 a b c rest hf ih =>
    have ha : a = bt := by simpa [fence] using congrArg (List.head? ·) hf
    have hb : b = bt := by simpa [fence] using congrArg (fun l => l.head?.bind (fun _ => l.tail.head?)) hf
    subst ha; subst hb
    exact ⟨c :: rest, rfl⟩
  | case5 a b c rest hf ih =>
    rw [stripTicks, if_neg hf] at h
    rcases List.prefix_cons_iff.mp h with h2 | ⟨t, ht, htp⟩
    · simp at h2
    · have ha : a = bt := by
        have := congrArg (List.head? ·) ht
        simpa using this.symm
      have ht2 : t = [bt] := by
        have := congrArg (List.tail ·) ht
        simpa using this.symm
      subst ht2
      rcases htp with ⟨u, hu⟩
      have hh : (stripTicks (b :: c :: rest)).head? = some bt := by
        rw [← hu]; simp
      have hb : b = bt := by simpa using stripTicks_head_bt _ hh
      subst ha; subst hb
      exact ⟨c :: rest, rfl⟩

/-- The output of the bare-fence replace never contains "```": removing the
leftmost matches one after another cannot juxtapose leftover backticks into
a new fence. -/
theorem stripTicks_no_fence (s : List Char) : ¬ fence <:+: stripTicks s := by
  induction s using stripTicks.induct with
  | case1 =>
    rw [stripTicks]
    intro h
    have := h.length_le
    simp [fence] at this
  | case2 a =>
    rw [stripTicks]
    intro h
    have := h.length_le
    simp [fence] at this
  | case3 a b =>
    rw [stripTicks]
    intro h
    have := h.length_le
    simp [fence] at this
  | case4 a b c rest hf ih =>
    rw [stripTicks, if_pos hf]
    exact ih
  | case5 a b c rest hf ih =>
    rw [stripTicks, if_neg hf]
    intro h
    rcases List.infix_cons_iff.mp h with hp | hi
    · rcases List.prefix_cons_iff.mp hp with h2 | ⟨t, ht, htp⟩
      · simp [fence] at h2
      · have ha : a = bt := by
          have := congrArg (List.head? ·) ht
          simp [fence] at this
          simpa using this.symm
        have ht2 : t = [bt, bt] := by
          have := congrArg (List.tail ·) ht
          simp [fence] at this
          simpa using this.symm
        subst ht2
        rcases stripTicks_prefix_btbt _ htp with ⟨u, hu⟩
        have hb : b = bt := by
          have := congrArg (List.head? ·) hu
          simpa using this.symm
        have hc : c = bt := by
          have := congrArg (fun l => l.tail.head?) hu
          simpa using this.symm
        exact hf (by simp [fence, ha, hb, hc])
    · exact ih hi

/-- A fence-free string is a fixpoint of the bare-fence replace. -/
theorem stripTicks_of_no_fence (s : List Char) (h : ¬ fence <:+: s) :
    stripTicks s = s := by
  induction s using stripTicks.induct with
  | case1 => rw [stripTicks]
  | case2 a => rw [stripTicks]
  | case3 a b => rw [stripTicks]
  | case4 a b c rest hf ih =>
    exfalso
    apply h
    refine List.IsPrefix.isInfix ⟨rest, ?_⟩
    have ha : a = bt := by simpa [fence] using congrArg (List.head? ·) hf
    have hb : b = bt := by
      have := congrArg (fun l => l.tail.head?) hf
      simpa [fence] using this
    have hc : c = bt := by
      have := congrArg (fun l => l.tail.tail.head?) hf
      simpa [fence] using this
    simp [fence, ha, hb, hc]
  | case5 a b c rest hf ih =>
    rw [stripTicks, if_neg hf]
    have : ¬ fence <:+: (b :: c :: rest) := fun hi => h (List.infix_cons hi)
    rw [ih this]

/-- A fence-free string is a fixpoint of the "```sql" replace. -/
theorem stripTicksSql_of_no_fence (s : List Char) (h : ¬ fence <:+: s) :
    stripTicksSql s = s := by
  induction s using stripTicksSql.induct with
  | case1 => rw [stripTicksSql]
  | case2 a => rw [stripTicksSql]
  | case3 a b => rw [stripTicksSql]
  | case4 a b c => rw [stripTicksSql]
  | case5 a b c d => rw [stripTicksSql]
  | case6 a b c d e => rw [stripTicksSql]
  | case7 a b c d e f rest hf ih =>
    exfalso
    apply h
    refine List.IsPrefix.isInfix ⟨'s' :: 'q' :: 'l' :: rest, ?_⟩
    have ha : a = bt := by simpa [fenceSql] using congrArg (List.head? ·) hf
    have hb : b = bt := by
      have := congrArg (fun l => l.tail.head?) hf
      simpa [fenceSql] using this
    have hc : c = bt := by
      have := congrArg (fun l => l.tail.tail.head?) hf
      simpa [fenceSql] using this
    have hd : d = 's' := by
      have := congrArg (fun l => l.tail.tail.tail.head?) hf
      simpa [fenceSql] using this
    have he : e = 'q' := by
      have := congrArg (fun l => l.tail.tail.tail.tail.head?) hf
      simpa [fenceSql] using this
    have hf6 : f = 'l' := by
      have := congrArg (fun l => l.tail.tail.tail.tail.tail.head?) hf
      simpa [fenceSql] using this
    simp [fence, ha, hb, hc, hd, he, hf6]
  | case8 a b c d e f rest hf ih =>
    rw [stripTicksSql, if_neg hf]
    have : ¬ fence <:+: (b :: c :: d :: e :: f :: rest) := fun hi => h (List.infix_cons hi)
    rw [ih this]

/-! ## Trim lemmas -/

theorem dropWhile_of_rdropWhile_dropWhile (l : List Char) :
    List.dropWhile wsChar (List.rdropWhile wsChar (List.dropWhile wsChar l)) =
      List.rdropWhile wsChar (List.dropWhile wsChar l) := by
  rw [List.dropWhile_eq_self_iff]
  intro hl
  have hpre := List.rdropWhile_prefix wsChar (List.dropWhile wsChar l)
  have hlt : 0 < (List.dropWhile wsChar l).length :=
    Nat.lt_of_lt_of_le hl hpre.length_le
  have hzero := List.dropWhile_get_zero_not (p := wsChar) l hlt
  have hget := hpre.getElem (n := 0) hl
  simp only [List.get_eq_getElem]
  simp only [List.get_eq_getElem] at hzero
  rw [hget]
  exact hzero

/-- `trim` is idempotent. -/
theorem trimChars_idem (l : List Char) : trimChars (trimChars l) = trimChars l := by
  unfold trimChars
  rw [dropWhile_of_rdropWhile_dropWhile, List.rdropWhile_idempotent]

/-- `trim` returns an infix of its input. -/
theorem trimChars_infix_self (l : List Char) : trimChars l <:+: l :=
  ((List.rdropWhile_prefix wsChar _).isInfix).trans
    ((List.dropWhile_suffix wsChar).isInfix)

/-- Claim C7: the Markdown fence-stripping cleanup applied to LLM-generated
SQL is idempotent: for every string, applying the cleanup to its own output
returns that output unchanged; in particular every already-clean string
(every value of `cleanSQL`) is a fixpoint of the cleanup. -/
theorem C7_cleanSQL_idempotent (s : List Char) : cleanSQL (cleanSQL s) = cleanSQL s := by
  unfold cleanSQL
  set t := stripTicks (stripTicksSql s) with ht
  have hft : ¬ fence <:+: t := stripTicks_no_fence (stripTicksSql s)
  have hfc : ¬ fence <:+: trimChars t := fun hi => hft (hi.trans (trimChars_infix_self t))
  rw [stripTicksSql_of_no_fence _ hfc, stripTicks_of_no_fence _ hfc, trimChars_idem]

/-! ## Claim C1: evaluation score range -/

/-- Helper: on every successful evaluation response the score field is the
parsed score with the `|| 0` default applied. -/
theorem evalEndpoint_score_eq (j : Json) (f : EvalFields)
    (h : evalEndpoint (some j) = some f) :
    f.score = jsOr (getProp j "score") (Json.num 0) := by
  cases j <;> simp [evalEndpoint] at h <;> simp [← h]

/-- Claim C1 (counterexample): a parsed evaluation whose score is the
number 2 is returned with score 2 — outside the unit interval and not
defaulted to 0 — so the endpoint neither clamps nor zeroes out-of-range
scores. -/
theorem C1_counterexample :
    (evalEndpoint (some (Json.obj [("score", Json.num 2)]))).map EvalFields.score
      = some (Json.num 2)
    ∧ scoreInUnit (Json.num 2) = false
    ∧ Json.num 2 ≠ Json.num 0 := by
  refine ⟨rfl, by decide, ?_⟩
  intro h
  injection h with h2
  exact absurd h2 (by decide)

/-- Claim C1 (amended): on a successful evaluation response, a missing or
JS-falsy score (in particular an absent field or a literal 0) is returned
as 0, and any truthy score value is passed through unchanged — so the
returned score is not clamped and can lie outside the unit interval. -/
theorem C1_score_default_or_passthrough :
    (∀ j f, evalEndpoint (some j) = some f → getProp j "score" = none →
      f.score = Json.num 0)
    ∧ (∀ j f v, evalEndpoint (some j) = some f → getProp j "score" = some v →
        jsTruthy v = false → f.score = Json.num 0)
    ∧ (∀ j f v, evalEndpoint (some j) = some f → getProp j "score" = some v →
        jsTruthy v = true → f.score = v) := by
  refine ⟨?_, ?_, ?_⟩
  · intro j f hef hg
    rw [evalEndpoint_score_eq j f hef, hg]
    rfl
  · intro j f v hef hg hv
    rw [evalEndpoint_score_eq j f hef, hg]
    simp [jsOr, hv]
  · intro j f v hef hg hv
    rw [evalEndpoint_score_eq j f hef, hg]
    simp [jsOr, hv]

/-- Claim C1 witness: the amended theorem applied to a parsed score of 3
(truthy, out of range): it comes back unchanged. -/
theorem C1_score_passthrough_witness :
    (evalEndpoint (some (Json.obj [("score", Json.num 3)]))).map EvalFields.score
      = some (Json.num 3) := by
  have h : evalEndpoint (some (Json.obj [("score", Json.num 3)]))
      = some { score := Json.num 3, summary := Json.str "No summary provided",
               strengths := Json.arr [], issues := Json.arr [],
               suggestions := Json.str "" } := rfl
  have hs := C1_score_default_or_passthrough.2.2 (Json.obj [("score", Json.num 3)])
    _ (Json.num 3) h rfl (by decide)
  rw [h]
  exact congrArg some hs

/-! ## Claim C2: behavior on unparseable LLM output -/

/-- Claim C2 (counterexample): when `JSON.parse` throws on the LLM body
(`none` input), the chart-config, evaluation and question-list endpoints
all answer with an error rather than an empty/zero-valued default — the
claimed fallback exists only in the relevant-table endpoint. -/
theorem C2_counterexample :
    chartConfigEndpoint none = Except.error ()
    ∧ evalEndpoint none = none
    ∧ questionsEndpoint none = Except.error () :=
  ⟨rfl, rfl, rfl⟩

/-- Claim C2 (amended): of the four structured-output endpoints, only
relevant-table identification falls back to a default (the empty list) on
unparseable LLM output; SQL evaluation, chart-config generation and
question-list generation answer HTTP 500 on a JSON parse failure; the
evaluation endpoint produces its zero-scored default only when the body is
empty, via the `content || "\x7b\x7d"` fallback that parses as an empty
object. -/
theorem C2_parse_failure_default_only_for_identify :
    evalEndpoint none = none
    ∧ chartConfigEndpoint none = Except.error ()
    ∧ questionsEndpoint none = Except.error ()
    ∧ (∀ tables respContent,
        identifyTablesLogic tables respContent (fun _ => none) = [])
    ∧ evalEndpoint (some (Json.obj []))
        = some { score := Json.num 0, summary := Json.str "No summary provided",
                 strengths := Json.arr [], issues := Json.arr [],
                 suggestions := Json.str "" } := by
  refine ⟨rfl, rfl, rfl, ?_, rfl⟩
  intro tables respContent
  unfold identifyTablesLogic
  cases h : extractJsonArray ((respContent.map trimChars).getD []) <;> simp [h]

/-! ## Claim C3: refine-action guard -/

/-- Claim C3: for an assistant message holding an evaluation, a (non-empty)
SQL string, a stored user question and no refined SQL yet, the refine
action is shown exactly when the evaluation score is strictly below 0.9. -/
theorem C3_refine_guard (m : Message) (e : SQLEvaluation)
    (he : m.evaluation = some e)
    (hq : optStrTruthy m.userQuestion = true)
    (hs : optStrTruthy m.sql = true)
    (hr : m.refinedSQL = none) :
    refineActionAvailable m = true ↔ e.score < 9/10 := by
  unfold refineActionAvailable
  rw [he, hr, hq, hs]
  simp [optStrTruthy]

/-- Claim C3 witness: a score of 0.65 makes the refine action available and
a score of 0.95 does not. -/
theorem C3_refine_guard_witness :
    refineActionAvailable (msgWithScore (13/20)) = true
    ∧ refineActionAvailable (msgWithScore (19/20)) = false := by
  constructor
  · rw [C3_refine_guard (msgWithScore (13/20)) _ rfl (by decide) (by decide) rfl]
    norm_num
  · rw [Bool.eq_false_iff, Ne,
      C3_refine_guard (msgWithScore (19/20)) _ rfl (by decide) (by decide) rfl]
    norm_num

/-! ## Claim C4: execute-sql is non-fatal on driver errors -/

/-- Claim C4: whenever the driver rejects the SQL (for example
`SELECT 1/0`), the execute-sql endpoint answers HTTP 200 with a populated
(non-empty) error string and no result field. -/
theorem C4_execute_error_nonfatal (msg : String) :
    ∃ e, (executeSqlPOST (Except.error msg)).1.error = some e ∧ e ≠ ""
      ∧ (executeSqlPOST (Except.error msg)).1.result = none
      ∧ (executeSqlPOST (Except.error msg)).1.status = 200 := by
  by_cases h : msg = ""
  · subst h
    exact ⟨"Failed to execute SQL", by simp [executeSqlPOST], by decide, rfl, rfl⟩
  · exact ⟨msg, by simp [executeSqlPOST, h], h, rfl, rfl⟩

/-! ## Claim C5: connections closed on every path -/

/-- Claim C5 (counterexample): when the columns introspection query throws
(for example when the connection is terminated mid-query), the handler
returns through its catch without ever issuing `client.end()` — the
connection it opened is not closed. -/
theorem C5_counterexample :
    (columnsPOST (Except.error "Connection terminated unexpectedly")).2
      = [DbEvent.connOpened]
    ∧ DbEvent.connClosed ∉
        (columnsPOST (Except.error "Connection terminated unexpectedly")).2 := by
  refine ⟨rfl, ?_⟩
  rw [show (columnsPOST (Except.error "Connection terminated unexpectedly")).2
      = [DbEvent.connOpened] from rfl]
  decide

/-- Claim C5 (amended): the execute-sql handler closes its connection on
both the success and the query-error path (its query sits in a
try/catch/finally); the columns introspection handler closes it only on
the success path — a throwing query leaves the connection open. -/
theorem C5_close_on_success_only_for_introspection :
    (∀ o, (executeSqlPOST o).2 = [DbEvent.connOpened, DbEvent.connClosed])
    ∧ (∀ r, (columnsPOST (Except.ok r)).2 = [DbEvent.connOpened, DbEvent.connClosed])
    ∧ (∀ e, (columnsPOST (Except.error e)).2 = [DbEvent.connOpened]) := by
  refine ⟨fun o => ?_, fun r => rfl, fun e => rfl⟩
  cases o <;> rfl

/-! ## Claim C6: failure propagation in the per-turn pipeline -/

/-- Claim C6 (counterexample): in a turn whose execute step fails with a
driver error, the evaluation step still runs — an execution failure does
not prevent the remaining pipeline steps. -/
theorem C6_counterexample :
    turnWithExecError.executeOutcome = some (Except.error "division by zero")
    ∧ PipelineStep.evaluateSQL ∈ (sendMessagePipeline "How many users?" turnWithExecError).1 := by
  refine ⟨rfl, ?_⟩
  rw [show (sendMessagePipeline "How many users?" turnWithExecError).1
      = [PipelineStep.identifyTables, PipelineStep.fetchColumns, PipelineStep.generateSQL,
         PipelineStep.executeSQL, PipelineStep.evaluateSQL] from rfl]
  decide

/-- Claim C6 (amended): a failure at the identify-tables, fetch-columns or
generate-SQL step aborts all remaining steps of the turn; a failed
execution does not — evaluation still runs, only interpretation is
skipped; and when execution succeeds, all six steps run (an evaluation
failure skips nothing). -/
theorem C6_failure_halting_by_step :
    (∀ q t, t.identifyOutcome = none →
      (sendMessagePipeline q t).1 = [PipelineStep.identifyTables])
    ∧ (∀ q t ts, t.identifyOutcome = some ts → ts ≠ [] → t.columnsOutcome = none →
      (sendMessagePipeline q t).1 = [PipelineStep.identifyTables, PipelineStep.fetchColumns])
    ∧ (∀ q t ts c, t.identifyOutcome = some ts → ts ≠ [] → t.columnsOutcome = some c →
        t.generateOutcome = none →
      (sendMessagePipeline q t).1
        = [PipelineStep.identifyTables, PipelineStep.fetchColumns, PipelineStep.generateSQL])
    ∧ (∀ q t ts c s, t.identifyOutcome = some ts → ts ≠ [] → t.columnsOutcome = some c →
        t.generateOutcome = some s →
        (t.executeOutcome = none ∨ ∃ e, t.executeOutcome = some (Except.error e)) →
      (sendMessagePipeline q t).1
        = [PipelineStep.identifyTables, PipelineStep.fetchColumns, PipelineStep.generateSQL,
           PipelineStep.executeSQL, PipelineStep.evaluateSQL])
    ∧ (∀ q t ts c s r, t.identifyOutcome = some ts → ts ≠ [] → t.columnsOutcome = some c →
        t.generateOutcome = some s → t.executeOutcome = some (Except.ok r) →
      (sendMessagePipeline q t).1
        = [PipelineStep.identifyTables, PipelineStep.fetchColumns, PipelineStep.generateSQL,
           PipelineStep.executeSQL, PipelineStep.evaluateSQL, PipelineStep.interpretResults]) := by
  have hemp : ∀ ts : List String, ts ≠ [] → ts.isEmpty = false := by
    intro ts h
    cases ts
    · exact absurd rfl h
    · rfl
  refine ⟨?_, ?_, ?_, ?_, ?_⟩
  · intro q t h
    unfold sendMessagePipeline
    rw [h]
  · intro q t ts h1 h2 h3
    unfold sendMessagePipeline
    rw [h1, h3]
    simp [hemp ts h2]
  · intro q t ts c h1 h2 h3 h4
    unfold sendMessagePipeline
    rw [h1, h3, h4]
    simp [hemp ts h2]
  · intro q t ts c s h1 h2 h3 h4 h5
    unfold sendMessagePipeline
    rw [h1, h3, h4]
    rcases h5 with h5 | ⟨e, h5⟩ <;> rw [h5] <;> simp [hemp ts h2]
  · intro q t ts c s r h1 h2 h3 h4 h5
    unfold sendMessagePipeline
    rw [h1, h3, h4, h5]
    simp [hemp ts h2]

/-- Claim C6 witness: the amended theorem applied to the concrete turn with
a failing execute call: exactly the first five steps run. -/
theorem C6_failure_halting_witness :
    (sendMessagePipeline "How many users?" turnWithExecError).1
      = [PipelineStep.identifyTables, PipelineStep.fetchColumns, PipelineStep.generateSQL,
         PipelineStep.executeSQL, PipelineStep.evaluateSQL] :=
  C6_failure_halting_by_step.2.2.2.1 "How many users?" turnWithExecError
    ["users"] [{ table := "users", columns := [] }] "SELECT 1/0;"
    rfl (by decide) rfl rfl (Or.inr ⟨"division by zero", rfl⟩)

/-! ## Claim C8: identified tables are a subset of the provided list -/

/-- Claim C8: whatever text the LLM returns and whatever `JSON.parse` makes
of the extracted candidate, every element of `relevantTables` comes from
the provided table list; and when no bracketed candidate can be extracted
from the (trimmed) response, the result is empty. -/
theorem C8_identify_tables_subset (tables : List String) (respContent : Option (List Char))
    (parseArr : List Char → Option (List Json)) :
    (∀ x ∈ identifyTablesLogic tables respContent parseArr, x ∈ tables)
    ∧ (extractJsonArray ((respContent.map trimChars).getD []) = none →
        identifyTablesLogic tables respContent parseArr = []) := by
  constructor
  · intro x hx
    simp only [identifyTablesLogic] at hx
    rcases h : extractJsonArray ((respContent.map trimChars).getD []) with _ | cand
    · rw [h] at hx
      simp at hx
    · rw [h] at hx
      simp only [List.mem_filterMap] at hx
      obtain ⟨j, hj, hjx⟩ := hx
      split at hjx
      · split at hjx
        · rename_i hmem
          injection hjx with h2
          subst h2
          exact hmem
        · simp at hjx
      · simp at hjx
  · intro h
    simp only [identifyTablesLogic]
    rw [h]

/-- Claim C8 witness: with a concrete parse outcome holding "users",
"teams" and a number, only "users" (present in the table list) survives;
and a response with no brackets yields the empty list. -/
theorem C8_identify_tables_witness :
    "users" ∈ ["users", "orders"]
    ∧ identifyTablesLogic ["users", "orders"] (some ['(', ')']) demoParseArr = [] := by
  constructor
  · exact (C8_identify_tables_subset ["users", "orders"] (some ['[', 'x', ']']) demoParseArr).1
      "users" (by decide)
  · exact (C8_identify_tables_subset ["users", "orders"] (some ['(', ')']) demoParseArr).2
      (by decide)

/-! ## Claim C9: trailing semicolon in generate-joined-sql -/

/-- Helper: trimming a list that ends in a non-whitespace character keeps
that character last. -/
theorem trimChars_append_getLast (x : List Char) (c : Char) (hc : wsChar c = false) :
    (trimChars (x ++ [c])).getLast? = some c := by
  unfold trimChars
  have hne : List.dropWhile wsChar (x ++ [c]) ≠ [] := by
    intro h
    have hall := List.dropWhile_eq_nil_iff.mp h c (by simp)
    simp [hc] at hall
  obtain ⟨a, ha⟩ := List.dropWhile_suffix (l := x ++ [c]) wsChar
  have hlast : (List.dropWhile wsChar (x ++ [c])).getLast? = some c := by
    have h1 : (a ++ List.dropWhile wsChar (x ++ [c])).getLast? = some c := by
      rw [ha]
      exact List.getLast?_concat x
    rw [List.getLast?_append] at h1
    obtain ⟨d, hd⟩ := Option.ne_none_iff_exists'.mp
      (fun hn => hne (List.getLast?_eq_none_iff.mp hn))
    rw [hd] at h1 ⊢
    simpa using h1
  have hfix : List.rdropWhile wsChar (List.dropWhile wsChar (x ++ [c]))
      = List.dropWhile wsChar (x ++ [c]) := by
    rw [List.rdropWhile_eq_self_iff]
    intro hl
    have hg := List.getLast?_eq_getLast (List.dropWhile wsChar (x ++ [c])) hl
    rw [hlast] at hg
    injection hg with h2
    rw [← h2]
    simp [hc]
  rw [hfix, hlast]

/-- Claim C9 (counterexample): a fenced reply whose SQL line ends in
"; " (semicolon then space) is returned as "SELECT 1; " — the trimmed
comparison sees the semicolon and the untrimmed string is returned, so the
returned SQL does not literally end with a semicolon. -/
theorem C9_counterexample :
    generateJoinedSQLOut (some demoFencedResp)
      = ['S', 'E', 'L', 'E', 'C', 'T', ' ', '1', ';', ' ']
    ∧ (generateJoinedSQLOut (some demoFencedResp)).getLast? ≠ some ';' := by
  refine ⟨by decide, ?_⟩
  rw [show generateJoinedSQLOut (some demoFencedResp)
      = ['S', 'E', 'L', 'E', 'C', 'T', ' ', '1', ';', ' '] from by decide]
  decide

/-- Claim C9 (amended): the SQL returned by generate-joined-sql always ends
with a semicolon once trailing whitespace is discarded: a semicolon is
appended exactly when the cleaned, trimmed LLM output lacks one, and
otherwise the cleaned string (whose trimmed form ends in the semicolon,
but which may itself carry trailing whitespace) is returned as-is. -/
theorem C9_trailing_semicolon_mod_whitespace :
    (∀ respContent,
      (trimChars (generateJoinedSQLOut respContent)).getLast? = some ';')
    ∧ (∀ respContent,
        (trimChars (cleanJoinedSql ((respContent.map trimChars).getD []))).getLast?
            ≠ some ';' →
        generateJoinedSQLOut respContent
          = trimChars (cleanJoinedSql ((respContent.map trimChars).getD [])) ++ [';']) := by
  constructor
  · intro rc
    simp only [generateJoinedSQLOut]
    by_cases h :
        (trimChars (cleanJoinedSql ((rc.map trimChars).getD []))).getLast? = some ';'
    · rw [if_pos h]
      exact h
    · rw [if_neg h]
      exact trimChars_append_getLast _ ';' (by decide)
  · intro rc h
    simp only [generateJoinedSQLOut]
    rw [if_neg h]

/-- Claim C9 witness: the amended theorem applied to the reply "SQL "
(no semicolon): the output is the trimmed cleaned string plus ";". -/
theorem C9_trailing_semicolon_witness :
    (trimChars (cleanJoinedSql (((some ['S', 'Q', 'L', ' ']).map trimChars).getD []))).getLast?
      ≠ some ';'
    ∧ generateJoinedSQLOut (some ['S', 'Q', 'L', ' '])
      = trimChars (cleanJoinedSql (((some ['S', 'Q', 'L', ' ']).map trimChars).getD []))
          ++ [';'] :=
  ⟨by decide, C9_trailing_semicolon_mod_whitespace.2 (some ['S', 'Q', 'L', ' ']) (by decide)⟩

/-! ## Claim C10: generate-questions bounds -/

/-- Claim C10: every successful generate-questions response holds between 1
and 10 questions, each a string that is non-empty after trimming; and when
the filter leaves no valid question, the endpoint fails with an error
rather than returning an empty list. -/
theorem C10_questions_valid_bounds :
    (∀ po qs, questionsEndpoint po = Except.ok qs →
      1 ≤ qs.length ∧ qs.length ≤ 10 ∧ ∀ q ∈ qs, 0 < (trimStr q).length)
    ∧ (∀ p ext, extractQuestionsArr p = some ext →
        ext.filterMap questionKeep = [] →
        questionsEndpoint (some p) = Except.error ()) := by
  constructor
  · intro po qs h
    cases po with
    | none => simp [questionsEndpoint] at h
    | some p =>
      rcases hx : extractQuestionsArr p with _ | ext
      · simp [questionsEndpoint, hx] at h
      · simp only [questionsEndpoint, hx] at h
        split at h
        · simp at h
        · rename_i hemp
          injection h with h2
          subst h2
          refine ⟨?_, List.length_take_le 10 _, ?_⟩
          · have hne : (ext.filterMap questionKeep).take 10 ≠ [] := by
              intro hnil
              rw [hnil] at hemp
              simp at hemp
            have := List.length_pos.mpr hne
            omega
          · intro q hq
            have hq2 := List.mem_of_mem_take hq
            simp only [List.mem_filterMap] at hq2
            obtain ⟨j, hj, hk⟩ := hq2
            cases j <;> simp only [questionKeep] at hk <;> try simp at hk
            obtain ⟨hpos, rfl⟩ := hk
            exact hpos
  · intro p ext hx hf
    simp [questionsEndpoint, hx, hf]

/-- Claim C10 witness: the theorem applied to a parsed reply holding one
valid question and one whitespace-only entry: the single surviving
question satisfies the bounds. -/
theorem C10_questions_witness :
    1 ≤ (["How many users are there?"] : List String).length
    ∧ (["How many users are there?"] : List String).length ≤ 10
    ∧ ∀ q ∈ (["How many users are there?"] : List String), 0 < (trimStr q).length :=
  C10_questions_valid_bounds.1 (some demoQuestionsJson) ["How many users are there?"]
    (by rfl)
